import Mathlib

/-!
Storefront cart screen

A shallow embedding of `src/components/storefront/CartScreen.js`: the values the
screen computes with, the total shown on the screen, the delivery quote request,
the reactions to the two bus events and the promise continuations of the SDK
calls, as a transition system on an explicit screen state.

Conventions of the embedding.

* JavaScript primitive values are `JSVal`.  Numbers are the integer-valued ones
  (amounts are in minor currency units); `NaN` has its own constructor.  JavaScript
  numbers are IEEE-754 doubles: sums and decimal printing of integers are exact on
  the safe integers (magnitude at most 2^53 - 1), and the arithmetic of the model
  is defined there only; outside, `jsAdd` and `toStr` give `none`.
* A render of the component closes over the values of `cart`, `deliverTo` and
  `storeLocation` of that render: this is `Env`.  Callbacks created by the mount
  effect keep the `Env` of the first render for the screen's lifetime.
* `products` is one JavaScript object, mutated in place, shared by all renders.
* Every SDK call returns a promise: the call is recorded in `trace`, the
  continuation is stored in `pending` and runs when the promise settles.
-/

namespace Storefront

/-! ## JavaScript values -/

/-- JavaScript primitive values; `num` holds the integer-valued numbers. -/
inductive JSVal where
  | undefined
  | null
  | bool (b : Bool)
  | num (n : Int)
  | nan
  | str (s : String)
  deriving DecidableEq, Repr

/-- ToBoolean of a primitive value. -/
def truthy : JSVal → Bool
  | .undefined => false
  | .null => false
  | .bool b => b
  | .num n => n != 0
  | .nan => false
  | .str s => s != ""

/-- ToNumber on the non-string primitives; `none` is `NaN`. -/
def toNumber : JSVal → Option Int
  | .undefined => none
  | .null => some 0
  | .bool b => some (if b then 1 else 0)
  | .num n => some n
  | .nan => none
  | .str _ => none

/-- The test `Number.isSafeInteger`: the magnitude is at most 2^53 - 1.  On these
integers the double that holds the number is the number itself, and a sum that is
again one of them is computed exactly. -/
def isSafeInteger (n : Int) : Bool :=
  decide (-9007199254740991 ≤ n) && decide (n ≤ 9007199254740991)

/-- ToString of a primitive value.  A safe integer prints as its decimal digits;
`none` for a number that is not a safe integer, whose printed form the model does
not give. -/
def toStr : JSVal → Option String
  | .undefined => some "undefined"
  | .null => some "null"
  | .bool b => some (if b then "true" else "false")
  | .num n => if isSafeInteger n then some (toString n) else none
  | .nan => some "NaN"
  | .str s => some s

/-- The binary `+` of JavaScript on primitive values: string concatenation when
either operand is a string, numeric addition otherwise.  The addition is the one of
doubles: it is the sum of the integers when both operands and the sum are safe
integers; `none` when they are not, where the double result is rounded and the model
does not give it. -/
def jsAdd (a b : JSVal) : Option JSVal :=
  match a, b with
  | .str s, _ => (toStr b).map (fun t => .str (s ++ t))
  | _, .str t => (toStr a).map (fun s => .str (s ++ t))
  | _, _ =>
    match toNumber a, toNumber b with
    | some x, some y =>
      if isSafeInteger x && isSafeInteger y && isSafeInteger (x + y) then some (.num (x + y))
      else none
    | _, _ => some .nan

/-! ## SDK objects read by the screen -/

/-- A line item of the cart: its own id and the id of its product. -/
structure CartItem where
  id : Nat
  product_id : Nat
  deriving DecidableEq, Repr

/-- The SDK `Cart`, as far as the screen reads it: `contents()`, the `isEmpty`
flag and the value `subtotal()` returns. -/
structure Cart where
  contents : List CartItem
  isEmpty : Bool
  subtotal : JSVal
  deriving DecidableEq, Repr

/-- The value held in the `serviceQuote` state: `null`, an instance of
`DeliveryServiceQuote` with its `amount` attribute, or any other value. -/
inductive QuoteVal where
  | null
  | delivery (amount : JSVal)
  | other (v : JSVal)
  deriving DecidableEq, Repr

/-- The function `calculateTotal` of the screen, on the `cart` and `serviceQuote` of the
render that calls it: `some v` when it returns `v`; `none` when the returned value is a
sum outside the safe integers (see `jsAdd`). -/
def calculateTotal (cart : Cart) (serviceQuote : QuoteVal) : Option JSVal :=
  let subtotal := cart.subtotal
  if cart.isEmpty then
    some (.num 0)
  else
    match serviceQuote with
    | .delivery amount => jsAdd subtotal amount
    | .null => some subtotal
    | .other _ => some subtotal

/-! ## Places, products and the closure of a render -/

/-- Coordinates of a place (the value of `place.coordinates`). -/
structure Coordinates where
  latitude : Int
  longitude : Int
  deriving DecidableEq, Repr

/-- The SDK `Place`, as far as the screen reads it: `id` is any primitive value
(absent, empty or a server id), `coordinates` its location. -/
structure Place where
  id : JSVal
  coordinates : Coordinates
  deriving DecidableEq, Repr

/-- The SDK `StoreLocation`; the screen only passes it on. -/
structure StoreLocation where
  id : Nat
  deriving DecidableEq, Repr

/-- The second argument of `quote.fromCart`: a place object or bare coordinates. -/
inductive Destination where
  | place (p : Place)
  | coordinates (c : Coordinates)
  deriving DecidableEq, Repr

/-- A product record returned by `storefront.products.findRecord`. -/
structure Product where
  id : Nat
  deriving DecidableEq, Repr

/-- The values of `cart`, `deliverTo` and `storeLocation` a render closes over;
`deliverTo` is `none` when nothing is persisted. -/
structure Env where
  cart : Cart
  deliverTo : Option Place
  storeLocation : StoreLocation
  deriving DecidableEq, Repr

/-- The assignment `products[product.id] = product` on the cache object. -/
def cacheSet : List (Nat × Product) → Product → List (Nat × Product)
  | [], p => [(p.id, p)]
  | (k, v) :: rest, p => if k = p.id then (k, p) :: rest else (k, v) :: cacheSet rest p

/-- The lookup `products[product_id]` on the cache object. -/
def cacheGet : List (Nat × Product) → Nat → Option Product
  | [], _ => none
  | (k, v) :: rest, i => if k = i then some v else cacheGet rest i

/-! ## Effects, pending promises and the event register -/

/-- What the screen does to the outside and to its own `cart` state, in order. -/
inductive Effect where
  | retrieve
  | fromCart (origin : StoreLocation) (destination : Destination) (cart : Cart)
  | findRecord (product_id : Nat)
  | remove (cart : Cart) (itemId : Nat)
  | empty (cart : Cart)
  | setCart (cart : Cart)
  | navigate (product : Product) (item : CartItem)
  | consoleLog
  deriving DecidableEq, Repr

/-- What follows `getCart()` at its call site: nothing (mount effect), the `then`
of `refreshCart`, or the `then` of `emptyCart`. -/
inductive AfterGetCart where
  | nothing
  | refresh
  | empty
  deriving DecidableEq, Repr

/-- The continuation attached to a pending SDK promise. -/
inductive Continuation where
  | quote
  | getCart (env : Env) (after : AfterGetCart)
  | remove
  | empty
  | preload (rest : List CartItem)
  | edit (item : CartItem)
  deriving DecidableEq, Repr

/-- How a pending promise settles. -/
inductive Settlement where
  | quote (q : QuoteVal)
  | cart (c : Cart)
  | product (p : Option Product)
  | rejected
  deriving DecidableEq, Repr

/-- A promise chain of the screen that ended rejected with no handler, named
after the call it started with. -/
inductive Failure where
  | getCart
  | remove
  | empty
  | preload
  | edit
  deriving DecidableEq, Repr

/-- The two event names of the bus. -/
inductive EventName where
  | cartChanged
  | deliverToChanged
  deriving DecidableEq, Repr

/-- An event with its payload. -/
inductive Event where
  | cartChanged (cart : Cart)
  | deliverToChanged (place : Place)
  deriving DecidableEq, Repr

/-- The name an event is emitted under. -/
def Event.name : Event → EventName
  | .cartChanged _ => .cartChanged
  | .deliverToChanged _ => .deliverToChanged

/-- A callback in the register: one of the screen, with the closure of the render
that created it, or one of another screen. -/
inductive Callback where
  | foreign
  | cartChanged (closure : Env)
  | locationChanged (closure : Env)
  deriving DecidableEq, Repr

/-- An entry of the event register. -/
structure Entry where
  id : Nat
  name : EventName
  callback : Callback
  deriving DecidableEq, Repr

/-- The state of the screen and of its surroundings. -/
structure State where
  env : Env
  products : List (Nat × Product)
  isLoading : Bool
  isFetchingServiceQuote : Bool
  serviceQuote : QuoteVal
  listeners : List Entry
  listenerCount : Nat
  subscriptions : Option (Nat × Nat)
  pending : List (Nat × Continuation)
  nextRequest : Nat
  trace : List Effect
  unhandled : List Failure
  deriving DecidableEq, Repr

/-- The state of the first render: `useState({})`, `useState(false)`,
`useState(true)`, `useState(null)`. -/
def State.initial (env : Env) (listeners : List Entry) (listenerCount : Nat) : State :=
  { env := env, products := [], isLoading := false, isFetchingServiceQuote := true,
    serviceQuote := .null, listeners := listeners, listenerCount := listenerCount,
    subscriptions := none, pending := [], nextRequest := 0, trace := [], unhandled := [] }

/-- The value `isCheckoutDisabled` of a render. -/
def isCheckoutDisabled (s : State) : Bool :=
  s.isFetchingServiceQuote || s.isLoading

/-- A state together with whether the code that produced it threw. -/
structure Outcome where
  state : State
  threw : Bool
  deriving DecidableEq, Repr

/-- An SDK call: the call is recorded and its promise becomes pending with the
given continuation. -/
def issue (e : Effect) (k : Continuation) (s : State) : State :=
  { s with trace := s.trace ++ [e],
           pending := s.pending ++ [(s.nextRequest, k)],
           nextRequest := s.nextRequest + 1 }

/-- A promise chain ends rejected with nobody to handle it. -/
def fail (f : Failure) (s : State) : State :=
  { s with unhandled := s.unhandled ++ [f] }

/-! ## The operations of the screen -/

/-- The expression `place || deliverTo`. -/
def customerLocation (place deliverTo : Option Place) : Option Place :=
  match place with
  | some p => some p
  | none => deliverTo

/-- The destination sent with the quote request: the coordinates when the place has
no id, the place itself otherwise. -/
def destinationOf (location : Place) : Destination :=
  if !truthy location.id then .coordinates location.coordinates else .place location

/-- The function `getDeliveryQuote` of the render with closure `env`.  `none`: the read of
`customerLocation.id` threw because there is neither a place nor a `deliverTo`; nothing
has been done by then. -/
def getDeliveryQuote (env : Env) (place : Option Place) (s : State) : Option State :=
  match customerLocation place env.deliverTo with
  | none => none
  | some location =>
    some (issue (.fromCart env.storeLocation (destinationOf location) env.cart) .quote
      { s with isFetchingServiceQuote := true })

/-- The loop of `preloadCartItems` from the given remaining items: it stops at the
next `await`; with no item left it ends with `setProducts(products)`, which stores
the object already held. -/
def preloadCartItems (contents : List CartItem) (s : State) : State :=
  match contents with
  | [] => s
  | cartItem :: rest => issue (.findRecord cartItem.product_id) (.preload rest) s

/-- The listener of 'cart.changed' created by the mount effect with closure `m`. -/
def cartChangedListener (m : Env) (cart : Cart) (s : State) : Outcome :=
  let s1 := { s with env := { s.env with cart := cart }, trace := s.trace ++ [.setCart cart] }
  match getDeliveryQuote m none s1 with
  | none => ⟨s1, true⟩
  | some s2 =>
    if s2.products.length = 0 then ⟨preloadCartItems cart.contents s2, false⟩
    else ⟨s2, false⟩

/-- The listener of 'deliver_to.changed' created by the mount effect with closure `m`. -/
def locationChangedListener (m : Env) (place : Place) (s : State) : Outcome :=
  match getDeliveryQuote m (some place) s with
  | none => ⟨s, true⟩
  | some s1 => ⟨s1, false⟩

/-- A registered callback called with the payload of an event. -/
def runCallback (cb : Callback) (ev : Event) (s : State) : Outcome :=
  match cb, ev with
  | .cartChanged m, .cartChanged cart => cartChangedListener m cart s
  | .locationChanged m, .deliverToChanged place => locationChangedListener m place s
  | _, _ => ⟨s, false⟩

/-- The register's `emit` over the entries: every callback registered under the
event's name is called in turn; a callback that throws ends the emit. -/
def emitTo : List Entry → Event → State → Outcome
  | [], _, s => ⟨s, false⟩
  | e :: es, ev, s =>
    if e.name = ev.name then
      let o := runCallback e.callback ev s
      if o.threw then o else emitTo es ev o.state
    else emitTo es ev s

/-- The register's `emit(name, payload)`. -/
def emit (ev : Event) (s : State) : Outcome :=
  emitTo s.listeners ev s

/-- The function `updateCart`: `emit('cart.changed', cart)`. -/
def updateCart (cart : Cart) (s : State) : Outcome :=
  emit (.cartChanged cart) s

/-- The function `getCart` of the render with closure `env`, up to the pending retrieval. -/
def getCart (env : Env) (after : AfterGetCart) (s : State) : State :=
  issue .retrieve (.getCart env after) s

/-- The `then` of `getCart` and what its call site chained on it, when the retrieval
resolves with `cart`. -/
def getCartResolved (env : Env) (after : AfterGetCart) (cart : Cart) (s : State) : State :=
  let o := updateCart cart s
  if o.threw then fail .getCart o.state
  else
    match getDeliveryQuote env none o.state with
    | none => fail .getCart o.state
    | some s1 =>
      match after with
      | .nothing => s1
      | .refresh => { s1 with isLoading := false }
      | .empty => issue (.empty cart) .empty s1

/-- The function `refreshCart` of the current render. -/
def refreshCart (s : State) : State :=
  getCart s.env .refresh { s with isLoading := true }

/-- The function `removeFromCart` of the current render. -/
def removeFromCart (cartItem : CartItem) (s : State) : State :=
  issue (.remove s.env.cart cartItem.id) .remove s

/-- The function `emptyCart` of the current render. -/
def emptyCart (s : State) : State :=
  getCart s.env .empty s

/-- The function `editCartItem` of the current render. -/
def editCartItem (cartItem : CartItem) (s : State) : State :=
  match cacheGet s.products cartItem.product_id with
  | some product => { s with trace := s.trace ++ [.navigate product cartItem] }
  | none => issue (.findRecord cartItem.product_id) (.edit cartItem) s

/-- The `then` of `cart.remove(...)` and of `cart.empty()`: `updateCart(cart)`. -/
def rebroadcast (f : Failure) (cart : Cart) (s : State) : State :=
  let o := updateCart cart s
  if o.threw then fail f o.state else o.state

/-- The continuation of a settled promise; `none` when the settlement is not one the
promise can have. -/
def runContinuation (k : Continuation) (r : Settlement) (s : State) : Option State :=
  match k, r with
  | .quote, .quote q => some { s with serviceQuote := q, isFetchingServiceQuote := false }
  | .quote, .rejected => some { s with trace := s.trace ++ [.consoleLog] }
  | .getCart env after, .cart cart => some (getCartResolved env after cart s)
  | .getCart _ _, .rejected => some (fail .getCart s)
  | .remove, .cart cart => some (rebroadcast .remove cart s)
  | .remove, .rejected => some (fail .remove s)
  | .empty, .cart cart => some (rebroadcast .empty cart s)
  | .empty, .rejected => some (fail .empty s)
  | .preload rest, .product (some product) =>
    some (preloadCartItems rest { s with products := cacheSet s.products product })
  | .preload rest, .product none => some (preloadCartItems rest s)
  | .preload _, .rejected => some (fail .preload s)
  | .edit cartItem, .product (some product) =>
    some { s with trace := s.trace ++ [.navigate product cartItem] }
  | .edit _, .product none => some (fail .edit s)
  | .edit _, .rejected => some (fail .edit s)
  | _, _ => none

/-- The continuation the pending promise `rid` carries. -/
def pendingOf : List (Nat × Continuation) → Nat → Option Continuation
  | [], _ => none
  | (i, k) :: rest, rid => if i = rid then some k else pendingOf rest rid

/-- The promise `rid` settles: it leaves the pending ones and its continuation runs. -/
def settle (rid : Nat) (r : Settlement) (s : State) : State :=
  match pendingOf s.pending rid with
  | none => s
  | some k =>
    match runContinuation k r { s with pending := s.pending.filter (fun p => p.1 != rid) } with
    | none => s
    | some s1 => s1

/-- The mount effect: `getCart()`, then the two `addEventListener` calls; the ids go
to the cleanup closure. -/
def mount (s : State) : State :=
  let s1 := getCart s.env .nothing s
  let cartChanged := s1.listenerCount + 1
  let locationChanged := s1.listenerCount + 2
  { s1 with
      listeners := s1.listeners ++
        [⟨cartChanged, .cartChanged, .cartChanged s.env⟩,
         ⟨locationChanged, .deliverToChanged, .locationChanged s.env⟩],
      listenerCount := s1.listenerCount + 2,
      subscriptions := some (cartChanged, locationChanged) }

/-- The cleanup of the mount effect: the two `removeEventListener` calls. -/
def unmount (s : State) : State :=
  match s.subscriptions with
  | none => s
  | some (cartChanged, locationChanged) =>
    { s with
        listeners := (s.listeners.filter (fun e => e.id != cartChanged)).filter
          (fun e => e.id != locationChanged),
        subscriptions := none }

/-- What can happen to the screen. -/
inductive Action where
  | mount
  | unmount
  | emitted (ev : Event)
  | refreshCart
  | removeFromCart (cartItem : CartItem)
  | emptyCart
  | editCartItem (cartItem : CartItem)
  | settle (rid : Nat) (r : Settlement)
  deriving DecidableEq, Repr

/-- One transition of the screen. -/
def step (s : State) : Action → State
  | .mount => mount s
  | .unmount => unmount s
  | .emitted ev => (emit ev s).state
  | .refreshCart => refreshCart s
  | .removeFromCart cartItem => removeFromCart cartItem s
  | .emptyCart => emptyCart s
  | .editCartItem cartItem => editCartItem cartItem s
  | .settle rid r => settle rid r s

/-- A run of the screen. -/
def run (s : State) (actions : List Action) : State :=
  actions.foldl step s

/-- The quote requests in a trace. -/
def quoteCalls (trace : List Effect) : List Effect :=
  trace.filter (fun e => match e with | .fromCart _ _ _ => true | _ => false)

/-- The product ids looked up in a trace, in order. -/
def findCalls (trace : List Effect) : List Nat :=
  trace.filterMap (fun e => match e with | .findRecord i => some i | _ => none)

/-- Whether a quote request is in flight. -/
def quoteInFlight (s : State) : Bool :=
  s.pending.any (fun p => p.2 == .quote)

/-- Request ids are fresh: every pending promise has an id below the next one. -/
def wellFormed (s : State) : Bool :=
  s.pending.all (fun p => decide (p.1 < s.nextRequest))

/-- No listener is registered under 'cart.changed'. -/
def noCartChangedListener (s : State) : Bool :=
  s.listeners.all (fun e => e.name != .cartChanged)

/-- A relation between states that every elementary update of the screen, the
resolution of a quote apart, respects. -/
structure Frame (R : State → State → Prop) : Prop where
  refl : ∀ s, R s s
  trans : ∀ a b c, R a b → R b c → R a c
  issue : ∀ e k s, R s (issue e k s)
  fail : ∀ f s, R s (fail f s)
  fetching : ∀ s, R s { s with isFetchingServiceQuote := true }
  setCart : ∀ c s,
    R s { s with env := { s.env with cart := c }, trace := s.trace ++ [.setCart c] }
  loading : ∀ b s, R s { s with isLoading := b }
  cache : ∀ p s, R s { s with products := cacheSet s.products p }
  effect : ∀ e s, R s { s with trace := s.trace ++ [e] }
  settled : ∀ rid s, R s { s with pending := s.pending.filter (fun p => p.1 != rid) }
  listeners : ∀ l n sub s,
    R s { s with listeners := l, listenerCount := n, subscriptions := sub }

/-- The relation also respects the resolution of a quote. -/
def RespectsQuote (R : State → State → Prop) : Prop :=
  ∀ q s, R s { s with serviceQuote := q, isFetchingServiceQuote := false }

/-- The action is not the resolution of a promise with a quote. -/
def Action.isQuoteResolution : Action → Bool
  | .settle _ (.quote _) => true
  | _ => false

/-! ## The event register over the screen's lifetime -/

/-- The register part of the state: the entries, the id counter and the ids the
cleanup closure holds. -/
def register (s : State) : List Entry × Nat × Option (Nat × Nat) :=
  (s.listeners, s.listenerCount, s.subscriptions)

/-- Ids handed out by the register are at most its counter. -/
def registerFresh (s : State) : Bool :=
  s.listeners.all (fun e => decide (e.id ≤ s.listenerCount))

/-- The action is the mount effect or its cleanup. -/
def Action.isMounting : Action → Bool
  | .mount => true
  | .unmount => true
  | _ => false

/-- The ids of the registered listeners, as a set. -/
def listenerIds (s : State) : Finset Nat :=
  (s.listeners.map Entry.id).toFinset

/-! ## What a render reads of the quote -/

/-- The quotes with which pending quote requests resolved along a run, oldest first. -/
def resolutions (s : State) : List Action → List QuoteVal
  | [] => []
  | .settle rid (.quote q) :: rest =>
    if pendingOf s.pending rid = some .quote then
      q :: resolutions (step s (.settle rid (.quote q))) rest
    else resolutions (step s (.settle rid (.quote q))) rest
  | a :: rest => resolutions (step s a) rest

/-- The object whose `formattedAmount` the Delivery Fee line reads:
`isFetchingServiceQuote ? <ActivityIndicator /> : serviceQuote.formattedAmount`. -/
def deliveryFeeReads (s : State) : Option QuoteVal :=
  if s.isFetchingServiceQuote then none else some s.serviceQuote

/-- The object whose `serialize()` the Checkout button calls when pressed; a
disabled button calls nothing. -/
def checkoutReads (s : State) : Option QuoteVal :=
  if isCheckoutDisabled s then none else some s.serviceQuote

/-! ## The account navigation stacks (`AccountStack.js`) -/

/-- The component a screen is registered with: a plain screen component, or one of
the two nested stack components. -/
inductive ScreenComponent where
  | screen (component : String)
  | mainStackScreen
  | placeStackScreen
  deriving DecidableEq, Repr

/-- The object `{ info }` given as `initialParams`, and read back as `route.params`. -/
structure Params (Info : Type) where
  info : Info

/-- A `<Stack.Screen name component options initialParams />` element. -/
structure Registration (Info : Type) where
  name : String
  component : ScreenComponent
  headerShown : Bool
  initialParams : Params Info

/-- The component `PlaceStackScreen`: the screens it registers for `route.params`. -/
def PlaceStackScreen {Info : Type} (params : Params Info) : List (Registration Info) :=
  let info := params.info
  [ ⟨"SearchPlace", .screen "StorefrontSearchPlaceScreen", false, ⟨info⟩⟩,
    ⟨"EditPlace", .screen "StorefrontEditPlaceScreen", false, ⟨info⟩⟩ ]

/-- The component `MainStackScreen`: the screen it registers for `route.params`. -/
def MainStackScreen {Info : Type} (params : Params Info) : List (Registration Info) :=
  let info := params.info
  [ ⟨"AccountScreen", .screen "StorefrontAccountScreen", false, ⟨info⟩⟩ ]

/-- The component `AccountStack`: the screens it registers for `route.params`. -/
def AccountStack {Info : Type} (params : Params Info) : List (Registration Info) :=
  let info := params.info
  [ ⟨"AccountStack", .mainStackScreen, false, ⟨info⟩⟩,
    ⟨"Login", .screen "StorefrontLoginScreen", false, ⟨info⟩⟩,
    ⟨"CreateAccount", .screen "StorefrontCreateAccountScreen", false, ⟨info⟩⟩,
    ⟨"EditProfile", .screen "StorefrontEditProfileScreen", false, ⟨info⟩⟩,
    ⟨"SavedPlaces", .screen "StorefrontSavedPlacesScreen", false, ⟨info⟩⟩,
    ⟨"AddNewPlace", .placeStackScreen, false, ⟨info⟩⟩,
    ⟨"EditPlaceForm", .screen "StorefrontEditPlaceScreen", false, ⟨info⟩⟩,
    ⟨"PaymentMethods", .screen "StorefrontPaymentMethodsScreen", false, ⟨info⟩⟩,
    ⟨"AddPaymentMethod", .screen "StorefrontAddPaymentMethodScreen", false, ⟨info⟩⟩,
    ⟨"OrderHistory", .screen "StorefrontOrderHistoryScreen", false, ⟨info⟩⟩,
    ⟨"ChangePassword", .screen "StorefrontChangePasswordScreen", false, ⟨info⟩⟩,
    ⟨"Order", .screen "StorefrontOrderScreen", false, ⟨info⟩⟩ ]

/-- The screens a registered screen brings with it: a nested stack component is
rendered with `route.params` the `initialParams` of its registration. -/
def nestedScreens {Info : Type} (r : Registration Info) : List (Registration Info) :=
  match r.component with
  | .screen _ => []
  | .mainStackScreen => MainStackScreen r.initialParams
  | .placeStackScreen => PlaceStackScreen r.initialParams

/-- Every screen registered by `AccountStack` and by the stacks nested in it, each
followed by the screens it brings with it. -/
def registeredScreens {Info : Type} (params : Params Info) : List (Registration Info) :=
  ((AccountStack params).map (fun r => r :: nestedScreens r)).flatten

/-! ## Sample data -/

/-- A cart of two line items, subtotal 500. -/
def cartA : Cart := ⟨[⟨1, 7⟩, ⟨2, 8⟩], false, .num 500⟩

/-- The cart `cartA` after its second line item was removed. -/
def cartB : Cart := ⟨[⟨1, 7⟩], false, .num 300⟩

/-- A saved place, with a server id. -/
def home : Place := ⟨.str "place_1", ⟨10, 20⟩⟩

/-- A place that is not saved: no id. -/
def dropPin : Place := ⟨.undefined, ⟨30, 40⟩⟩

/-- The closure of a first render: `cartA`, delivery to `home`, store location 1. -/
def env0 : Env := ⟨cartA, some home, ⟨1⟩⟩

/-- The first render with closure `env0` and an empty event register. -/
def state0 : State := State.initial env0 [] 0

/-- A cart with two line items of the same product (two variants of product 7). -/
def cartD : Cart := ⟨[⟨1, 7⟩, ⟨2, 7⟩], false, .num 800⟩

/-- The first render with closure `env0` in a register that already holds a listener
of another screen. -/
def state1 : State := State.initial env0 [⟨1, .cartChanged, .foreign⟩] 1

/-! ## Theorems -/

/-! ### Every operation is built from the elementary updates -/

theorem Frame.getDeliveryQuote {R : State → State → Prop} (hR : Frame R) (env : Env)
    (place : Option Place) (s s1 : State) (h : getDeliveryQuote env place s = some s1) :
    R s s1 := by
  unfold Storefront.getDeliveryQuote at h
  split at h
  · exact absurd h (by simp)
  · cases h
    exact hR.trans _ _ _ (hR.fetching s) (hR.issue _ _ _)

theorem Frame.preloadCartItems {R : State → State → Prop} (hR : Frame R)
    (contents : List CartItem) (s : State) : R s (preloadCartItems contents s) := by
  cases contents with
  | nil => exact hR.refl s
  | cons _ _ => exact hR.issue _ _ _

theorem Frame.cartChangedListener {R : State → State → Prop} (hR : Frame R) (m : Env)
    (cart : Cart) (s : State) : R s (cartChangedListener m cart s).state := by
  unfold Storefront.cartChangedListener
  simp only
  split
  · exact hR.setCart cart s
  · rename_i s2 h
    refine hR.trans _ _ _ (hR.setCart cart s) ?_
    refine hR.trans _ _ _ (hR.getDeliveryQuote _ _ _ _ h) ?_
    split
    · exact hR.preloadCartItems _ _
    · exact hR.refl _

theorem Frame.locationChangedListener {R : State → State → Prop} (hR : Frame R) (m : Env)
    (place : Place) (s : State) : R s (locationChangedListener m place s).state := by
  unfold Storefront.locationChangedListener
  split
  · exact hR.refl s
  · rename_i s1 h
    exact hR.getDeliveryQuote _ _ _ _ h

theorem Frame.runCallback {R : State → State → Prop} (hR : Frame R) (cb : Callback)
    (ev : Event) (s : State) : R s (runCallback cb ev s).state := by
  unfold Storefront.runCallback
  split
  · exact hR.cartChangedListener _ _ _
  · exact hR.locationChangedListener _ _ _
  · exact hR.refl s

theorem Frame.emitTo {R : State → State → Prop} (hR : Frame R) (es : List Entry)
    (ev : Event) (s : State) : R s (emitTo es ev s).state := by
  induction es generalizing s with
  | nil => exact hR.refl s
  | cons e es ih =>
    unfold Storefront.emitTo
    split
    · simp only
      split
      · exact hR.runCallback _ _ _
      · exact hR.trans _ _ _ (hR.runCallback _ _ _) (ih _)
    · exact ih s

theorem Frame.updateCart {R : State → State → Prop} (hR : Frame R) (cart : Cart)
    (s : State) : R s (updateCart cart s).state :=
  hR.emitTo _ _ _

theorem Frame.rebroadcast {R : State → State → Prop} (hR : Frame R) (f : Failure)
    (cart : Cart) (s : State) : R s (rebroadcast f cart s) := by
  unfold Storefront.rebroadcast
  simp only
  split
  · exact hR.trans _ _ _ (hR.updateCart cart s) (hR.fail _ _)
  · exact hR.updateCart cart s

theorem Frame.getCartResolved {R : State → State → Prop} (hR : Frame R) (env : Env)
    (after : AfterGetCart) (cart : Cart) (s : State) :
    R s (getCartResolved env after cart s) := by
  unfold Storefront.getCartResolved
  simp only
  split
  · exact hR.trans _ _ _ (hR.updateCart cart s) (hR.fail _ _)
  · refine hR.trans _ _ _ (hR.updateCart cart s) ?_
    split
    · exact hR.fail _ _
    · rename_i s1 h
      refine hR.trans _ _ _ (hR.getDeliveryQuote _ _ _ _ h) ?_
      cases after
      · exact hR.refl _
      · exact hR.loading _ _
      · exact hR.issue _ _ _

theorem Frame.runContinuation {R : State → State → Prop} (hR : Frame R) (k : Continuation)
    (r : Settlement) (s s1 : State)
    (hq : (∀ q, r ≠ .quote q) ∨ RespectsQuote R)
    (h : runContinuation k r s = some s1) : R s s1 := by
  unfold Storefront.runContinuation at h
  split at h <;> cases h
  · rename_i q
    rcases hq with hq | hq
    · exact absurd rfl (hq q)
    · exact hq q s
  · exact hR.effect _ _
  · exact hR.getCartResolved _ _ _ _
  · exact hR.fail _ _
  · exact hR.rebroadcast _ _ _
  · exact hR.fail _ _
  · exact hR.rebroadcast _ _ _
  · exact hR.fail _ _
  · exact hR.trans _ _ _ (hR.cache _ _) (hR.preloadCartItems _ _)
  · exact hR.preloadCartItems _ _
  · exact hR.fail _ _
  · exact hR.effect _ _
  · exact hR.fail _ _
  · exact hR.fail _ _

theorem Frame.settle {R : State → State → Prop} (hR : Frame R) (rid : Nat)
    (r : Settlement) (s : State) (hq : (∀ q, r ≠ .quote q) ∨ RespectsQuote R) :
    R s (settle rid r s) := by
  unfold Storefront.settle
  split
  · exact hR.refl s
  · split
    · exact hR.refl s
    · rename_i s1 h
      exact hR.trans _ _ _ (hR.settled rid s) (hR.runContinuation _ _ _ _ hq h)

theorem Frame.step {R : State → State → Prop} (hR : Frame R) (s : State) (a : Action)
    (hq : a.isQuoteResolution = false ∨ RespectsQuote R) : R s (step s a) := by
  cases a with
  | mount =>
    exact hR.trans _ _ _ (hR.issue _ _ _) (hR.listeners _ _ _ _)
  | unmount =>
    show R s (unmount s)
    unfold Storefront.unmount
    split
    · exact hR.refl s
    · exact hR.listeners _ _ _ _
  | emitted ev => exact hR.emitTo _ _ _
  | refreshCart => exact hR.trans _ _ _ (hR.loading true s) (hR.issue _ _ _)
  | removeFromCart cartItem => exact hR.issue _ _ _
  | emptyCart => exact hR.issue _ _ _
  | editCartItem cartItem =>
    show R s (editCartItem cartItem s)
    unfold Storefront.editCartItem
    split
    · exact hR.effect _ _
    · exact hR.issue _ _ _
  | settle rid r =>
    refine hR.settle rid r s ?_
    rcases hq with hq | hq
    · left
      intro q hr
      subst hr
      simp [Action.isQuoteResolution] at hq
    · exact Or.inr hq

theorem Frame.run {R : State → State → Prop} (hR : Frame R) (actions : List Action)
    (s : State)
    (hq : (∀ a ∈ actions, a.isQuoteResolution = false) ∨ RespectsQuote R) :
    R s (run s actions) := by
  induction actions generalizing s with
  | nil => exact hR.refl s
  | cons a actions ih =>
    show R s (Storefront.run (Storefront.step s a) actions)
    refine hR.trans _ _ _ (hR.step s a ?_) (ih _ ?_)
    · rcases hq with hq | hq
      · exact Or.inl (hq a (List.mem_cons_self _ _))
      · exact Or.inr hq
    · rcases hq with hq | hq
      · exact Or.inl (fun b hb => hq b (List.mem_cons_of_mem _ hb))
      · exact Or.inr hq

/-! ### Four instances -/

theorem frame_serviceQuote : Frame (fun s s1 => s1.serviceQuote = s.serviceQuote) := by
  constructor <;> intros <;> simp_all [issue, fail]

theorem frame_fetching :
    Frame (fun s s1 => s.isFetchingServiceQuote = true → s1.isFetchingServiceQuote = true) := by
  constructor <;> intros <;> simp_all [issue, fail]

theorem frame_products : Frame (fun s s1 => s.products ≠ [] → s1.products ≠ []) := by
  constructor <;> intros <;> simp_all [issue, fail]
  rename_i p s h
  cases hp : s.products with
  | nil => exact absurd hp h
  | cons e rest =>
    obtain ⟨k, v⟩ := e
    simp only [cacheSet]
    split <;> simp

theorem frame_products_quote : RespectsQuote (fun s s1 => s.products ≠ [] → s1.products ≠ []) := by
  intro q s h
  exact h

theorem frame_wellFormed :
    Frame (fun s s1 => wellFormed s = true → wellFormed s1 = true) := by
  have key : ∀ s s1 : State, s1.pending = s.pending → s1.nextRequest = s.nextRequest →
      wellFormed s = true → wellFormed s1 = true := by
    intro s s1 hp hn h
    simpa [wellFormed, hp, hn] using h
  refine ⟨fun _ h => h, fun _ _ _ h1 h2 h => h2 (h1 h), ?_, fun _ s => key s _ rfl rfl,
    fun s => key s _ rfl rfl, fun _ s => key s _ rfl rfl, fun _ s => key s _ rfl rfl,
    fun _ s => key s _ rfl rfl, fun _ s => key s _ rfl rfl, ?_,
    fun _ _ _ s => key s _ rfl rfl⟩
  · intro e k s h
    simp only [wellFormed, List.all_eq_true, decide_eq_true_eq] at h
    simp only [wellFormed, issue, List.all_eq_true, decide_eq_true_eq, List.mem_append,
      List.mem_singleton]
    rintro p (hp | rfl)
    · exact Nat.lt_succ_of_lt (h p hp)
    · exact Nat.lt_succ_self _
  · intro rid s h
    simp only [wellFormed, List.all_eq_true, decide_eq_true_eq] at h
    simp only [wellFormed, List.all_eq_true, decide_eq_true_eq, List.mem_filter]
    exact fun p hp => h p hp.1

theorem frame_wellFormed_quote :
    RespectsQuote (fun s s1 => wellFormed s = true → wellFormed s1 = true) := by
  intro q s h
  exact h

/-! ### Pending promises and listeners -/

theorem pendingOf_append (ps qs : List (Nat × Continuation)) (rid : Nat)
    (h : ∀ p ∈ ps, p.1 ≠ rid) : pendingOf (ps ++ qs) rid = pendingOf qs rid := by
  induction ps with
  | nil => rfl
  | cons p ps ih =>
    obtain ⟨i, k⟩ := p
    have hi : i ≠ rid := h (i, k) (List.mem_cons_self _ _)
    simp only [List.cons_append, pendingOf, hi, if_false]
    exact ih (fun q hq => h q (List.mem_cons_of_mem _ hq))

theorem filter_fresh (ps : List (Nat × Continuation)) (rid : Nat)
    (h : ∀ p ∈ ps, p.1 ≠ rid) : ps.filter (fun p => p.1 != rid) = ps := by
  rw [List.filter_eq_self]
  intro p hp
  simpa using h p hp

theorem wellFormed_fresh (s : State) (hwf : wellFormed s = true) :
    ∀ p ∈ s.pending, p.1 ≠ s.nextRequest := by
  intro p hp
  simp only [wellFormed, List.all_eq_true, decide_eq_true_eq] at hwf
  exact Nat.ne_of_lt (hwf p hp)

theorem wellFormed_reachable (env : Env) (listeners : List Entry) (listenerCount : Nat)
    (actions : List Action) :
    wellFormed (run (State.initial env listeners listenerCount) actions) = true :=
  frame_wellFormed.run actions _ (Or.inr frame_wellFormed_quote) rfl

theorem emitTo_no_listener (es : List Entry) (ev : Event) (s : State)
    (h : ∀ e ∈ es, e.name ≠ ev.name) : emitTo es ev s = ⟨s, false⟩ := by
  induction es with
  | nil => rfl
  | cons e es ih =>
    have he : e.name ≠ ev.name := h e (List.mem_cons_self _ _)
    simp only [emitTo, he, if_false]
    exact ih (fun x hx => h x (List.mem_cons_of_mem _ hx))

theorem updateCart_no_listener (cart : Cart) (s : State)
    (h : noCartChangedListener s = true) : updateCart cart s = ⟨s, false⟩ := by
  refine emitTo_no_listener _ _ _ ?_
  intro e he
  simp only [noCartChangedListener, List.all_eq_true] at h
  simpa [Event.name] using h e he

/-! ### The register is touched by mount and unmount only -/

theorem register_getDeliveryQuote (env : Env) (place : Option Place) (s s1 : State)
    (h : getDeliveryQuote env place s = some s1) : register s1 = register s := by
  unfold getDeliveryQuote at h
  split at h <;> cases h
  rfl

theorem register_preloadCartItems (contents : List CartItem) (s : State) :
    register (preloadCartItems contents s) = register s := by
  cases contents <;> rfl

theorem register_runCallback (cb : Callback) (ev : Event) (s : State) :
    register (runCallback cb ev s).state = register s := by
  unfold runCallback
  split
  · rename_i m cart
    unfold cartChangedListener
    simp only
    split
    · rfl
    · rename_i s2 h
      have h2 := register_getDeliveryQuote _ _ _ _ h
      split
      · rw [register_preloadCartItems, h2]
        rfl
      · rw [h2]
        rfl
  · rename_i m place
    unfold locationChangedListener
    split
    · rfl
    · rename_i s1 h
      exact register_getDeliveryQuote _ _ _ _ h
  · rfl

theorem register_emitTo (es : List Entry) (ev : Event) (s : State) :
    register (emitTo es ev s).state = register s := by
  induction es generalizing s with
  | nil => rfl
  | cons e es ih =>
    unfold emitTo
    split
    · simp only
      split
      · exact register_runCallback _ _ _
      · rw [ih, register_runCallback]
    · exact ih s

theorem register_rebroadcast (f : Failure) (cart : Cart) (s : State) :
    register (rebroadcast f cart s) = register s := by
  unfold rebroadcast updateCart emit
  simp only
  split
  · exact register_emitTo _ _ _
  · exact register_emitTo _ _ _

theorem register_getCartResolved (env : Env) (after : AfterGetCart) (cart : Cart)
    (s : State) : register (getCartResolved env after cart s) = register s := by
  unfold getCartResolved updateCart emit
  simp only
  split
  · exact register_emitTo _ _ _
  · split
    · exact register_emitTo _ _ _
    · rename_i s1 h
      have h1 := register_getDeliveryQuote _ _ _ _ h
      rw [register_emitTo] at h1
      cases after <;> exact h1

theorem register_runContinuation (k : Continuation) (r : Settlement) (s s1 : State)
    (h : runContinuation k r s = some s1) : register s1 = register s := by
  unfold runContinuation at h
  split at h <;> cases h
  all_goals first
    | rfl
    | exact register_getCartResolved _ _ _ _
    | exact register_rebroadcast _ _ _
    | exact register_preloadCartItems _ _

theorem register_step (s : State) (a : Action) (h : a.isMounting = false) :
    register (step s a) = register s := by
  cases a with
  | mount => simp [Action.isMounting] at h
  | unmount => simp [Action.isMounting] at h
  | emitted ev => exact register_emitTo _ _ _
  | refreshCart => rfl
  | removeFromCart cartItem => rfl
  | emptyCart => rfl
  | editCartItem cartItem =>
    show register (editCartItem cartItem s) = register s
    unfold editCartItem
    split <;> rfl
  | settle rid r =>
    show register (settle rid r s) = register s
    unfold settle
    split
    · rfl
    · split
      · rfl
      · rename_i s1 h1
        exact (register_runContinuation _ _ _ _ h1).trans rfl

theorem register_run (actions : List Action) (s : State)
    (h : ∀ a ∈ actions, a.isMounting = false) : register (run s actions) = register s := by
  induction actions generalizing s with
  | nil => rfl
  | cons a actions ih =>
    show register (run (step s a) actions) = register s
    rw [ih _ (fun b hb => h b (List.mem_cons_of_mem _ hb)),
      register_step s a (h a (List.mem_cons_self _ _))]

theorem unmount_mounted (s t : State) (hfresh : registerFresh s = true)
    (ht : register t = register (mount s)) : (unmount t).listeners = s.listeners := by
  simp only [register, mount, getCart, issue, Prod.mk.injEq] at ht
  obtain ⟨hl, -, hs⟩ := ht
  simp only [registerFresh, List.all_eq_true, decide_eq_true_eq] at hfresh
  have h1 : s.listeners.filter (fun e => e.id != s.listenerCount + 1) = s.listeners := by
    rw [List.filter_eq_self]
    intro e he
    have := hfresh e he
    simp only [bne_iff_ne, ne_eq]
    omega
  have h2 : s.listeners.filter (fun e => e.id != s.listenerCount + 2) = s.listeners := by
    rw [List.filter_eq_self]
    intro e he
    have := hfresh e he
    simp only [bne_iff_ne, ne_eq]
    omega
  simp [unmount, hs, hl, List.filter_append, h1, h2]

theorem registerFresh_run (actions : List Action) (s : State)
    (h : registerFresh s = true) : registerFresh (run s actions) = true := by
  induction actions generalizing s with
  | nil => exact h
  | cons a actions ih =>
    refine ih (step s a) ?_
    cases hm : a.isMounting with
    | false =>
      have hr := register_step s a hm
      simp only [register, Prod.mk.injEq] at hr
      simpa [registerFresh, hr.1, hr.2.1] using h
    | true =>
      simp only [registerFresh, List.all_eq_true, decide_eq_true_eq] at h
      cases a with
      | mount =>
        simp only [step, mount, getCart, issue, registerFresh, List.all_eq_true,
          decide_eq_true_eq, List.mem_append, List.mem_cons, List.mem_singleton,
          List.not_mem_nil, or_false]
        rintro e (he | rfl | rfl)
        · exact Nat.le_add_right_of_le (h e he)
        · exact Nat.le_succ _
        · exact Nat.le_refl _
      | unmount =>
        show registerFresh (unmount s) = true
        unfold unmount
        split
        · simpa [registerFresh] using h
        · simp only [registerFresh, List.all_eq_true, decide_eq_true_eq, List.mem_filter]
          exact fun e he => h e he.1.1
      | _ => simp [Action.isMounting] at hm

/-! ### The stored quote is the latest resolved one -/

theorem settle_quote_other (rid : Nat) (q : QuoteVal) (s : State)
    (h : pendingOf s.pending rid ≠ some .quote) : settle rid (.quote q) s = s := by
  unfold settle
  split
  · rfl
  · rename_i k hk
    cases k with
    | quote => exact absurd hk h
    | _ => rfl

theorem settle_quote_pending (rid : Nat) (q : QuoteVal) (s : State)
    (h : pendingOf s.pending rid = some .quote) :
    (settle rid (.quote q) s).serviceQuote = q ∧
    (settle rid (.quote q) s).isFetchingServiceQuote = false := by
  simp [settle, h, runContinuation]

theorem getLast?_cons_getD (q d : QuoteVal) (l : List QuoteVal) :
    ((q :: l).getLast?).getD d = (l.getLast?).getD q := by
  cases l with
  | nil => rfl
  | cons x xs =>
    rw [List.getLast?_cons_cons, List.getLast?_eq_getLast (x :: xs) (List.cons_ne_nil x xs)]
    rfl

theorem serviceQuote_run (actions : List Action) (s : State) :
    (run s actions).serviceQuote = ((resolutions s actions).getLast?).getD s.serviceQuote ∧
    ((run s actions).isFetchingServiceQuote = false →
      s.isFetchingServiceQuote = false ∨ resolutions s actions ≠ []) := by
  induction actions generalizing s with
  | nil => exact ⟨rfl, fun h => Or.inl h⟩
  | cons a actions ih =>
    have hrun : run s (a :: actions) = run (step s a) actions := rfl
    rw [hrun]
    obtain ⟨ih1, ih2⟩ := ih (step s a)
    by_cases hq : a.isQuoteResolution = true
    · cases a with
      | settle rid r =>
        cases r with
        | quote q =>
          by_cases hp : pendingOf s.pending rid = some .quote
          · have hres : resolutions s (.settle rid (.quote q) :: actions)
                = q :: resolutions (step s (.settle rid (.quote q))) actions := by
              simp [resolutions, hp]
            have hs := settle_quote_pending rid q s hp
            refine ⟨?_, fun _ => Or.inr (by simp [hres])⟩
            rw [hres, getLast?_cons_getD, ih1]
            exact congrArg _ hs.1
          · have hres : resolutions s (.settle rid (.quote q) :: actions)
                = resolutions (step s (.settle rid (.quote q))) actions := by
              simp [resolutions, hp]
            have hs : step s (.settle rid (.quote q)) = s := settle_quote_other rid q s hp
            rw [hres]
            rw [hs] at ih1 ih2 ⊢
            exact ⟨ih1, ih2⟩
        | _ => simp [Action.isQuoteResolution] at hq
      | _ => simp [Action.isQuoteResolution] at hq
    · have hq : a.isQuoteResolution = false := by simpa using hq
      have hres : resolutions s (a :: actions) = resolutions (step s a) actions := by
        cases a with
        | settle rid r =>
          cases r with
          | quote q => simp [Action.isQuoteResolution] at hq
          | _ => rfl
        | _ => rfl
      have h1 : (step s a).serviceQuote = s.serviceQuote :=
        frame_serviceQuote.step s a (Or.inl hq)
      have h2 : s.isFetchingServiceQuote = true → (step s a).isFetchingServiceQuote = true :=
        frame_fetching.step s a (Or.inl hq)
      rw [hres]
      refine ⟨by rw [ih1, h1], fun h => ?_⟩
      rcases ih2 h with h3 | h3
      · left
        cases hf : s.isFetchingServiceQuote with
        | false => rfl
        | true => rw [h2 hf] at h3; exact absurd h3 (by simp)
      · exact Or.inr h3

/-! ### The claims -/

/-- C1: for a cart whose `isEmpty` flag is true, `calculateTotal` returns 0 for every
value of `serviceQuote` and every value returned by `cart.subtotal()`. -/
theorem calculateTotal_empty (contents : List CartItem) (subtotal : JSVal)
    (serviceQuote : QuoteVal) :
    calculateTotal ⟨contents, true, subtotal⟩ serviceQuote = some (.num 0) := by
  simp [calculateTotal]

/-- C2: for a non-empty cart, `calculateTotal` returns the sum of the subtotal and the
quote amount when `serviceQuote` is a `DeliveryServiceQuote`, for integer operands in
minor units that are safe integers with a safe sum (where the `+` of doubles is the
sum of the integers), and exactly the subtotal when `serviceQuote` is null or
anything else; subtotal 500 and amount 150 give 650. -/
theorem calculateTotal_nonEmpty (contents : List CartItem) :
    (∀ subtotal amount : Int, isSafeInteger subtotal = true → isSafeInteger amount = true →
        isSafeInteger (subtotal + amount) = true →
        calculateTotal ⟨contents, false, .num subtotal⟩ (.delivery (.num amount))
          = some (.num (subtotal + amount))) ∧
    (∀ subtotal : JSVal, calculateTotal ⟨contents, false, subtotal⟩ .null = some subtotal) ∧
    (∀ subtotal v : JSVal,
        calculateTotal ⟨contents, false, subtotal⟩ (.other v) = some subtotal) ∧
    calculateTotal ⟨contents, false, .num 500⟩ (.delivery (.num 150)) = some (.num 650) := by
  refine ⟨?_, ?_, ?_, ?_⟩
  · intro subtotal amount hs ha hsum
    simp [calculateTotal, jsAdd, toNumber, hs, ha, hsum]
  · intro subtotal
    simp [calculateTotal]
  · intro subtotal v
    simp [calculateTotal]
  · simp [calculateTotal, jsAdd, toNumber, isSafeInteger]

/-- Witness of C2: subtotal 500 and amount 150 are safe integers with a safe sum, and
the total is their sum. -/
theorem calculateTotal_nonEmpty_witness :
    (isSafeInteger 500 = true ∧ isSafeInteger 150 = true ∧
      isSafeInteger (500 + 150) = true) ∧
    calculateTotal ⟨[⟨1, 7⟩], false, .num 500⟩ (.delivery (.num 150))
      = some (.num (500 + 150)) :=
  ⟨⟨by decide, by decide, by decide⟩,
    (calculateTotal_nonEmpty [⟨1, 7⟩]).1 500 150 (by decide) (by decide) (by decide)⟩

/-- C3: the destination of `getDeliveryQuote` is the place argument when one is given and
the persisted `deliverTo` otherwise, and the second argument of `quote.fromCart` is its
coordinates when its id is falsy and the destination itself when it has an id. -/
theorem getDeliveryQuote_destination (env : Env) (place : Option Place) (s : State)
    (d : Place) (h : place = some d ∨ (place = none ∧ env.deliverTo = some d)) :
    ∃ s1, getDeliveryQuote env place s = some s1 ∧
      s1.trace = s.trace ++
        [.fromCart env.storeLocation
          (if truthy d.id then .place d else .coordinates d.coordinates) env.cart] := by
  have hloc : customerLocation place env.deliverTo = some d := by
    rcases h with h | ⟨h1, h2⟩
    · simp [customerLocation, h]
    · simp [customerLocation, h1, h2]
  refine ⟨_, by simp only [getDeliveryQuote, hloc]; rfl, ?_⟩
  cases hid : truthy d.id <;> simp [issue, destinationOf, hid]

/-- Witness of C3: no place argument, `deliverTo` is a place without id, so its
coordinates are sent. -/
theorem getDeliveryQuote_destination_witness :
    ((none : Option Place) = some dropPin ∨
      ((none : Option Place) = none ∧
        (⟨cartA, some dropPin, ⟨1⟩⟩ : Env).deliverTo = some dropPin)) ∧
    ∃ s1, getDeliveryQuote ⟨cartA, some dropPin, ⟨1⟩⟩ none state0 = some s1 ∧
      s1.trace = state0.trace ++
        [.fromCart (⟨cartA, some dropPin, ⟨1⟩⟩ : Env).storeLocation
          (if truthy dropPin.id then .place dropPin else .coordinates dropPin.coordinates)
          (⟨cartA, some dropPin, ⟨1⟩⟩ : Env).cart] :=
  ⟨Or.inr ⟨rfl, rfl⟩,
    getDeliveryQuote_destination ⟨cartA, some dropPin, ⟨1⟩⟩ none state0 dropPin
      (Or.inr ⟨rfl, rfl⟩)⟩

/-- C4: the reaction to a 'cart.changed' event stores the cart of the event but requests
the quote with the cart its closure holds, the one of the first render: after mounting
with `cartA`, an event carrying `cartB` leaves `cartB` stored and `cartA` quoted. -/
theorem cartChanged_quotes_first_render_cart :
    (∀ (first : Cart) (d : Place) (origin : StoreLocation) (cart : Cart) (s : State),
      (cartChangedListener ⟨first, some d, origin⟩ cart s).state.env.cart = cart ∧
      quoteCalls (cartChangedListener ⟨first, some d, origin⟩ cart s).state.trace
        = quoteCalls s.trace ++ [.fromCart origin (destinationOf d) first]) ∧
    (run state0 [.mount, .emitted (.cartChanged cartB)]).env.cart = cartB ∧
    quoteCalls (run state0 [.mount, .emitted (.cartChanged cartB)]).trace
      = [.fromCart ⟨1⟩ (.place home) cartA] ∧
    cartA ≠ cartB := by
  refine ⟨?_, rfl, rfl, by decide⟩
  intro first d origin cart s
  constructor
  · simp only [cartChangedListener, getDeliveryQuote, customerLocation, issue]
    split <;> cases cart.contents <;> rfl
  · simp only [cartChangedListener, getDeliveryQuote, customerLocation, issue]
    split
    · cases cart.contents <;> simp [preloadCartItems, issue, quoteCalls]
    · simp [quoteCalls]

/-- C5, as stated, fails: with no listener registered, `emptyCart` issues a quote
request once its cart retrieval resolves. -/
theorem emptyCart_refreshes_quote :
    noCartChangedListener state0 = true ∧
    quoteCalls (run state0 [.emptyCart, .settle 0 (.cart cartB)]).trace
      = [.fromCart ⟨1⟩ (.place home) cartA] := by
  refine ⟨rfl, rfl⟩

/-- C5, amended: with no 'cart.changed' listener registered, `removeFromCart` and its
continuation issue no quote request; `emptyCart` issues exactly one, from `getCart`,
when the retrieval resolves, and its `cart.empty()` continuation issues none. -/
theorem mutations_quote_requests (s : State) (hwf : wellFormed s = true)
    (hno : noCartChangedListener s = true) :
    (∀ cartItem r,
      quoteCalls (run s [.removeFromCart cartItem, .settle s.nextRequest r]).trace
        = quoteCalls s.trace) ∧
    (∀ cart d, s.env.deliverTo = some d →
      quoteCalls (run s [.emptyCart, .settle s.nextRequest (.cart cart)]).trace
        = quoteCalls s.trace ++ [.fromCart s.env.storeLocation (destinationOf d) s.env.cart]) ∧
    (∀ cart d r, s.env.deliverTo = some d →
      quoteCalls (run s [.emptyCart, .settle s.nextRequest (.cart cart),
          .settle (s.nextRequest + 2) r]).trace
        = quoteCalls s.trace ++ [.fromCart s.env.storeLocation (destinationOf d) s.env.cart]) := by
  have hfresh := wellFormed_fresh s hwf
  refine ⟨?_, ?_, ?_⟩
  · intro cartItem r
    have hup : ∀ c t n,
        updateCart c { s with pending := s.pending, trace := t, nextRequest := n } =
        ⟨{ s with pending := s.pending, trace := t, nextRequest := n }, false⟩ :=
      fun c t n => updateCart_no_listener c _ hno
    cases r <;>
      simp [run, step, removeFromCart, settle, issue, pendingOf_append _ _ _ hfresh, pendingOf,
        List.filter_append, filter_fresh _ _ hfresh, runContinuation, rebroadcast, fail, hup,
        quoteCalls]
  · intro cart d hd
    have hup : ∀ t n,
        updateCart cart { s with pending := s.pending, trace := t, nextRequest := n } =
        ⟨{ s with pending := s.pending, trace := t, nextRequest := n }, false⟩ :=
      fun t n => updateCart_no_listener cart _ hno
    simp [run, step, emptyCart, getCart, settle, issue, pendingOf_append _ _ _ hfresh, pendingOf,
      List.filter_append, filter_fresh _ _ hfresh, runContinuation, getCartResolved, hup,
      getDeliveryQuote, customerLocation, hd, quoteCalls]
  · intro cart d r hd
    have hup : ∀ c t n p f,
        updateCart c { s with pending := p, trace := t, nextRequest := n,
                              isFetchingServiceQuote := f } =
        ⟨{ s with pending := p, trace := t, nextRequest := n, isFetchingServiceQuote := f },
          false⟩ :=
      fun c t n p f => updateCart_no_listener c _ hno
    have hfresh2 : ∀ p ∈ s.pending, p.1 ≠ s.nextRequest + 2 := by
      intro p hp
      simp only [wellFormed, List.all_eq_true, decide_eq_true_eq] at hwf
      have := hwf p hp
      omega
    cases r <;>
      simp [run, step, emptyCart, getCart, settle, issue, pendingOf_append _ _ _ hfresh,
        pendingOf_append _ _ _ hfresh2, pendingOf,
        List.filter_append, filter_fresh _ _ hfresh, filter_fresh _ _ hfresh2,
        runContinuation, getCartResolved, hup,
        getDeliveryQuote, customerLocation, hd, quoteCalls, rebroadcast, fail]

/-- Witness of C5 amended, on the first render with an empty register. -/
theorem mutations_quote_requests_witness :
    (wellFormed state0 = true ∧ noCartChangedListener state0 = true) ∧
    quoteCalls (run state0 [.removeFromCart ⟨2, 8⟩, .settle state0.nextRequest (.cart cartB)]).trace
      = quoteCalls state0.trace :=
  ⟨⟨rfl, rfl⟩, (mutations_quote_requests state0 rfl rfl).1 ⟨2, 8⟩ (.cart cartB)⟩

/-- C6, as stated, fails: two 'cart.changed' events delivered before the first lookup
settles look product 7 up twice; and one event whose cart has two line items of
product 7 looks it up again after it was cached. -/
theorem preload_fetches_twice :
    findCalls (run state0 [.mount, .emitted (.cartChanged cartB),
        .emitted (.cartChanged cartB)]).trace = [7, 7] ∧
    cacheGet (run state0 [.mount, .emitted (.cartChanged cartD),
        .settle 2 (.product (some ⟨7⟩))]).products 7 = some ⟨7⟩ ∧
    findCalls (run state0 [.mount, .emitted (.cartChanged cartD),
        .settle 2 (.product (some ⟨7⟩))]).trace = [7, 7] := by
  refine ⟨rfl, rfl, rfl⟩

theorem runCallback_cached (cb : Callback) (ev : Event) (s : State)
    (h : s.products ≠ []) :
    (runCallback cb ev s).state.products = s.products ∧
    findCalls (runCallback cb ev s).state.trace = findCalls s.trace := by
  have hlen : ¬ s.products.length = 0 := by
    intro h0
    exact h (List.length_eq_zero.mp h0)
  unfold runCallback
  split
  · rename_i m cart
    cases hd : m.deliverTo <;>
      simp [cartChangedListener, getDeliveryQuote, customerLocation, hd, issue, hlen,
        findCalls]
  · rename_i m place
    simp [locationChangedListener, getDeliveryQuote, customerLocation, issue, findCalls]
  · exact ⟨rfl, rfl⟩

theorem emitTo_cached (es : List Entry) (ev : Event) (s : State) (h : s.products ≠ []) :
    (emitTo es ev s).state.products = s.products ∧
    findCalls (emitTo es ev s).state.trace = findCalls s.trace := by
  induction es generalizing s with
  | nil => exact ⟨rfl, rfl⟩
  | cons e es ih =>
    unfold emitTo
    split
    · have hcb := runCallback_cached e.callback ev s h
      simp only
      split
      · exact hcb
      · have h1 : (runCallback e.callback ev s).state.products ≠ [] := by
          rw [hcb.1]
          exact h
        have := ih _ h1
        exact ⟨this.1.trans hcb.1, this.2.trans hcb.2⟩
    · exact ih s h

/-- C6, amended: once the products cache holds a product, it stays non-empty, and a
'cart.changed' event delivered from then on starts no preload: its reaction looks no
product up.  (While the cache is empty every event starts a preload of all its line
items.) -/
theorem cartChanged_no_lookup_once_cached (s : State) (actions : List Action) (cart : Cart)
    (h : s.products ≠ []) :
    (run s actions).products ≠ [] ∧
    findCalls (step (run s actions) (.emitted (.cartChanged cart))).trace
      = findCalls (run s actions).trace := by
  have h1 : (run s actions).products ≠ [] :=
    frame_products.run actions s (Or.inr frame_products_quote) h
  exact ⟨h1, (emitTo_cached _ _ _ h1).2⟩

/-- Witness of C6 amended: after product 7 was cached, a further event looks nothing up. -/
theorem cartChanged_no_lookup_once_cached_witness :
    (run state0 [.mount, .emitted (.cartChanged cartB),
        .settle 2 (.product (some ⟨7⟩))]).products ≠ [] ∧
    (run (run state0 [.mount, .emitted (.cartChanged cartB),
        .settle 2 (.product (some ⟨7⟩))]) [.refreshCart]).products ≠ [] ∧
    findCalls (step (run (run state0 [.mount, .emitted (.cartChanged cartB),
        .settle 2 (.product (some ⟨7⟩))]) [.refreshCart]) (.emitted (.cartChanged cartA))).trace
      = findCalls (run (run state0 [.mount, .emitted (.cartChanged cartB),
        .settle 2 (.product (some ⟨7⟩))]) [.refreshCart]).trace :=
  ⟨by decide,
    cartChanged_no_lookup_once_cached
      (run state0 [.mount, .emitted (.cartChanged cartB), .settle 2 (.product (some ⟨7⟩))])
      [.refreshCart] cartA (by decide)⟩

/-- C7, as stated, fails: after mount, the retrieved cart triggers two quote requests
(one from the event reaction, one from `getCart`); the resolution of the first clears
`isFetchingServiceQuote` and enables checkout while the second is in flight. -/
theorem checkout_enabled_with_quote_in_flight :
    quoteCalls (run state0 [.mount, .settle 0 (.cart cartA)]).trace
      = [.fromCart ⟨1⟩ (.place home) cartA, .fromCart ⟨1⟩ (.place home) cartA] ∧
    quoteInFlight (run state0 [.mount, .settle 0 (.cart cartA),
        .settle 1 (.quote (.delivery (.num 150)))]) = true ∧
    (run state0 [.mount, .settle 0 (.cart cartA),
        .settle 1 (.quote (.delivery (.num 150)))]).isFetchingServiceQuote = false ∧
    isCheckoutDisabled (run state0 [.mount, .settle 0 (.cart cartA),
        .settle 1 (.quote (.delivery (.num 150)))]) = false := by
  refine ⟨rfl, rfl, rfl, rfl⟩

/-- C7, amended: from the moment `getDeliveryQuote` issues a request, that request is in
flight and `isFetchingServiceQuote`, hence `isCheckoutDisabled`, is true, and both stay
true for as long as no quote request resolves, whatever else happens. -/
theorem fetching_until_a_quote_resolves (env : Env) (place : Option Place) (s s1 : State)
    (actions : List Action) (h : getDeliveryQuote env place s = some s1)
    (hno : ∀ a ∈ actions, a.isQuoteResolution = false) :
    quoteInFlight s1 = true ∧
    (run s1 actions).isFetchingServiceQuote = true ∧
    isCheckoutDisabled (run s1 actions) = true := by
  have h1 : s1.isFetchingServiceQuote = true ∧ quoteInFlight s1 = true := by
    unfold getDeliveryQuote at h
    split at h
    · cases h
    · cases h
      simp [issue, quoteInFlight]
  have h2 : (run s1 actions).isFetchingServiceQuote = true :=
    frame_fetching.run actions s1 (Or.inl hno) h1.1
  exact ⟨h1.2, h2, by simp [isCheckoutDisabled, h2]⟩

/-- Witness of C7 amended: a request issued on the first render, then a refresh, an
event and a rejection. -/
theorem fetching_until_a_quote_resolves_witness :
    (getDeliveryQuote env0 none state0
        = some (issue (.fromCart ⟨1⟩ (.place home) cartA) .quote state0) ∧
      ∀ a ∈ [Action.refreshCart, .emitted (.cartChanged cartB), .settle 0 .rejected],
        a.isQuoteResolution = false) ∧
    quoteInFlight (issue (.fromCart ⟨1⟩ (.place home) cartA) .quote state0) = true ∧
    (run (issue (.fromCart ⟨1⟩ (.place home) cartA) .quote state0)
      [.refreshCart, .emitted (.cartChanged cartB), .settle 0 .rejected]).isFetchingServiceQuote
        = true ∧
    isCheckoutDisabled (run (issue (.fromCart ⟨1⟩ (.place home) cartA) .quote state0)
      [.refreshCart, .emitted (.cartChanged cartB), .settle 0 .rejected]) = true :=
  ⟨⟨rfl, by decide⟩,
    fetching_until_a_quote_resolves env0 none state0 _
      [.refreshCart, .emitted (.cartChanged cartB), .settle 0 .rejected] rfl (by decide)⟩

/-- C8: `getDeliveryQuote` itself leaves `serviceQuote` as it was; when its request is
rejected the handler only logs, so `serviceQuote` is what it was before the call (also
when other actions, none of them a quote resolution, come in between); when it
resolves, `serviceQuote` becomes the resolved quote. -/
theorem quote_settlement_serviceQuote (env : Env) (place : Option Place) (s s1 : State)
    (hwf : wellFormed s = true) (h : getDeliveryQuote env place s = some s1) :
    s1.serviceQuote = s.serviceQuote ∧
    pendingOf s1.pending s.nextRequest = some .quote ∧
    (step s1 (.settle s.nextRequest .rejected)).serviceQuote = s.serviceQuote ∧
    (step s1 (.settle s.nextRequest .rejected)).trace = s1.trace ++ [.consoleLog] ∧
    (∀ q, (step s1 (.settle s.nextRequest (.quote q))).serviceQuote = q) ∧
    (∀ actions : List Action, (∀ a ∈ actions, a.isQuoteResolution = false) →
      (run s1 (actions ++ [.settle s.nextRequest .rejected])).serviceQuote = s.serviceQuote) := by
  have hfresh := wellFormed_fresh s hwf
  unfold getDeliveryQuote at h
  split at h
  · cases h
  · cases h
    refine ⟨rfl, ?_, ?_, ?_, ?_, ?_⟩
    · simp [issue, pendingOf_append _ _ _ hfresh, pendingOf]
    · simp [step, settle, issue, pendingOf_append _ _ _ hfresh, pendingOf, runContinuation]
    · simp [step, settle, issue, pendingOf_append _ _ _ hfresh, pendingOf, runContinuation]
    · intro q
      simp [step, settle, issue, pendingOf_append _ _ _ hfresh, pendingOf, runContinuation]
    · intro actions hno
      have hall : ∀ a ∈ actions ++ [Action.settle s.nextRequest .rejected],
          a.isQuoteResolution = false := by
        intro a ha
        rcases List.mem_append.mp ha with ha | ha
        · exact hno a ha
        · rw [List.mem_singleton.mp ha]
          rfl
      exact frame_serviceQuote.run _ _ (Or.inl hall)

/-- Witness of C8: a request issued on the first render, rejected, or resolved with a
quote of 150. -/
theorem quote_settlement_serviceQuote_witness :
    (wellFormed state0 = true ∧
      getDeliveryQuote env0 none state0
        = some (issue (.fromCart ⟨1⟩ (.place home) cartA) .quote state0)) ∧
    (step (issue (.fromCart ⟨1⟩ (.place home) cartA) .quote state0)
      (.settle state0.nextRequest .rejected)).serviceQuote = state0.serviceQuote ∧
    (step (issue (.fromCart ⟨1⟩ (.place home) cartA) .quote state0)
      (.settle state0.nextRequest (.quote (.delivery (.num 150))))).serviceQuote
        = .delivery (.num 150) :=
  ⟨⟨rfl, rfl⟩,
    (quote_settlement_serviceQuote env0 none state0 _ rfl rfl).2.2.1,
    (quote_settlement_serviceQuote env0 none state0 _ rfl rfl).2.2.2.2.1 _⟩

/-- C9: the rejection of the cart retrieval started by `refreshCart` is not caught: the
promise chain ends rejected and `isLoading` stays true; the same chain ends rejected
for `removeFromCart`, `emptyCart`, the preload and `editCartItem`, while the rejection
of a quote request is caught and logged. -/
theorem rejections_not_caught :
    (run state0 [.refreshCart, .settle 0 .rejected]).isLoading = true ∧
    (run state0 [.refreshCart, .settle 0 .rejected]).unhandled = [.getCart] ∧
    (run state0 [.refreshCart, .settle 0 .rejected]).pending = [] ∧
    (run state0 [.mount, .refreshCart, .settle 1 .rejected, .emitted (.deliverToChanged home),
      .settle 2 (.quote (.delivery (.num 150)))]).isFetchingServiceQuote = false ∧
    isCheckoutDisabled (run state0 [.mount, .refreshCart, .settle 1 .rejected,
      .emitted (.deliverToChanged home), .settle 2 (.quote (.delivery (.num 150)))]) = true ∧
    (run state0 [.mount, .settle 0 .rejected]).unhandled = [.getCart] ∧
    (run state0 [.removeFromCart ⟨2, 8⟩, .settle 0 .rejected]).unhandled = [.remove] ∧
    (run state0 [.emptyCart, .settle 0 (.cart cartA), .settle 2 .rejected]).unhandled
      = [.empty] ∧
    (run state0 [.mount, .emitted (.cartChanged cartB), .settle 2 .rejected]).unhandled
      = [.preload] ∧
    (run state0 [.editCartItem ⟨1, 7⟩, .settle 0 .rejected]).unhandled = [.edit] ∧
    (run state0 [.mount, .emitted (.deliverToChanged home), .settle 1 .rejected]).unhandled
      = [] ∧
    (run state0 [.mount, .emitted (.deliverToChanged home), .settle 1 .rejected]).trace
      = [.retrieve, .fromCart ⟨1⟩ (.place home) cartA, .consoleLog] := by
  refine ⟨rfl, rfl, rfl, rfl, rfl, rfl, rfl, rfl, rfl, rfl, rfl, rfl⟩

/-- C10: the reaction to 'deliver_to.changed' issues exactly one quote request, whose
destination is the place of the event (its coordinates when it has no id), and does
nothing else: no `setCart`, no product lookup, cart and product cache unchanged. -/
theorem locationChanged_refreshes_quote_only (m : Env) (place : Place) (s : State) :
    (locationChangedListener m place s).threw = false ∧
    (locationChangedListener m place s).state.trace = s.trace ++
      [.fromCart m.storeLocation
        (if truthy place.id then .place place else .coordinates place.coordinates) m.cart] ∧
    (locationChangedListener m place s).state.pending = s.pending ++ [(s.nextRequest, .quote)] ∧
    (locationChangedListener m place s).state.env = s.env ∧
    (locationChangedListener m place s).state.products = s.products ∧
    (∀ i j, emit (.deliverToChanged place)
        { s with listeners := [⟨i, .cartChanged, .cartChanged m⟩,
                                ⟨j, .deliverToChanged, .locationChanged m⟩] }
      = locationChangedListener m place
        { s with listeners := [⟨i, .cartChanged, .cartChanged m⟩,
                                ⟨j, .deliverToChanged, .locationChanged m⟩] }) := by
  refine ⟨?_, ?_, ?_, ?_, ?_, ?_⟩
  · simp [locationChangedListener, getDeliveryQuote, customerLocation]
  · cases hid : truthy place.id <;>
      simp [locationChangedListener, getDeliveryQuote, customerLocation, issue, destinationOf,
        hid]
  · simp [locationChangedListener, getDeliveryQuote, customerLocation, issue]
  · simp [locationChangedListener, getDeliveryQuote, customerLocation, issue]
  · simp [locationChangedListener, getDeliveryQuote, customerLocation, issue]
  · intro i j
    simp [emit, emitTo, Event.name, runCallback, locationChangedListener, getDeliveryQuote,
      customerLocation]

/-- C12: for every context object `info` in `route.params` of `AccountStack`, every
screen registered by `AccountStack`, `MainStackScreen` and `PlaceStackScreen`, the
screens nested under 'AccountStack' and 'AddNewPlace' included, has `initialParams`
whose `info` is that same object. -/
theorem registeredScreens_info (Info : Type) (info : Info) :
    (registeredScreens ⟨info⟩).map (fun r => r.initialParams.info) = List.replicate 15 info ∧
    (registeredScreens ⟨info⟩).map (fun r => r.name) =
      ["AccountStack", "AccountScreen", "Login", "CreateAccount", "EditProfile",
       "SavedPlaces", "AddNewPlace", "SearchPlace", "EditPlace", "EditPlaceForm",
       "PaymentMethods", "AddPaymentMethod", "OrderHistory", "ChangePassword", "Order"] ∧
    (AccountStack ⟨info⟩).map (fun r => r.initialParams.info) = List.replicate 12 info ∧
    (MainStackScreen ⟨info⟩).map (fun r => r.initialParams.info) = [info] ∧
    (PlaceStackScreen ⟨info⟩).map (fun r => r.initialParams.info) = [info, info] := by
  refine ⟨rfl, rfl, rfl, rfl, rfl⟩

/-- C11: mounting registers exactly two listeners, one under 'cart.changed' and one
under 'deliver_to.changed'; the cleanup removes exactly those two, whatever the screen
did in between: the entries of the register, and so the set of listener ids, are
after mount and unmount what they were before mount. -/
theorem mount_unmount_listeners (s : State) (actions : List Action)
    (hfresh : registerFresh s = true) (hquiet : ∀ a ∈ actions, a.isMounting = false) :
    (mount s).listeners = s.listeners ++
      [⟨s.listenerCount + 1, .cartChanged, .cartChanged s.env⟩,
       ⟨s.listenerCount + 2, .deliverToChanged, .locationChanged s.env⟩] ∧
    (mount s).subscriptions = some (s.listenerCount + 1, s.listenerCount + 2) ∧
    (unmount (mount s)).listeners = s.listeners ∧
    (run s (.mount :: (actions ++ [.unmount]))).listeners = s.listeners ∧
    listenerIds (run s (.mount :: (actions ++ [.unmount]))) = listenerIds s := by
  have h3 : (run s (.mount :: (actions ++ [.unmount]))).listeners = s.listeners := by
    have hrun : run s (.mount :: (actions ++ [.unmount]))
        = unmount (run (mount s) actions) := by
      simp [run, step, List.foldl_append]
    rw [hrun]
    exact unmount_mounted s _ hfresh (register_run actions (mount s) hquiet)
  refine ⟨rfl, rfl, unmount_mounted s _ hfresh rfl, h3, ?_⟩
  simp only [listenerIds, h3]

/-- Witness of C11: a register that holds a listener of another screen; the screen
mounts, reacts to an event, refreshes, and unmounts. -/
theorem mount_unmount_listeners_witness :
    (registerFresh state1 = true ∧
      ∀ a ∈ [Action.emitted (.cartChanged cartB), .refreshCart, .settle 0 (.cart cartA)],
        a.isMounting = false) ∧
    (mount state1).listeners =
      [⟨1, .cartChanged, .foreign⟩, ⟨2, .cartChanged, .cartChanged env0⟩,
       ⟨3, .deliverToChanged, .locationChanged env0⟩] ∧
    (run state1 (.mount :: ([Action.emitted (.cartChanged cartB), .refreshCart,
      .settle 0 (.cart cartA)] ++ [.unmount]))).listeners = state1.listeners :=
  ⟨⟨rfl, by decide⟩,
    (mount_unmount_listeners state1
      [.emitted (.cartChanged cartB), .refreshCart, .settle 0 (.cart cartA)] rfl
      (by decide)).1,
    (mount_unmount_listeners state1
      [.emitted (.cartChanged cartB), .refreshCart, .settle 0 (.cart cartA)] rfl
      (by decide)).2.2.2.1⟩

/-- C13: in every run from the first render (`isFetchingServiceQuote` true,
`serviceQuote` null), `serviceQuote` is the quote of the latest resolved quote request,
or the initial null when none has resolved; when `isFetchingServiceQuote` is false a
request has resolved, so what the Delivery Fee line reads `formattedAmount` of and what
the Checkout button calls `serialize()` on is a resolved quote, not the initial null. -/
theorem serviceQuote_is_resolved_quote (env : Env) (listeners : List Entry)
    (listenerCount : Nat) (actions : List Action) :
    (run (State.initial env listeners listenerCount) actions).serviceQuote =
      ((resolutions (State.initial env listeners listenerCount) actions).getLast?).getD
        .null ∧
    ((run (State.initial env listeners listenerCount) actions).isFetchingServiceQuote = false →
      (resolutions (State.initial env listeners listenerCount) actions).getLast? =
        some (run (State.initial env listeners listenerCount) actions).serviceQuote) ∧
    (∀ q, deliveryFeeReads (run (State.initial env listeners listenerCount) actions) = some q →
      (resolutions (State.initial env listeners listenerCount) actions).getLast? = some q) ∧
    (∀ q, checkoutReads (run (State.initial env listeners listenerCount) actions) = some q →
      (resolutions (State.initial env listeners listenerCount) actions).getLast? = some q) := by
  obtain ⟨h1, h2⟩ := serviceQuote_run actions (State.initial env listeners listenerCount)
  have key : (run (State.initial env listeners listenerCount) actions).isFetchingServiceQuote
      = false →
      (resolutions (State.initial env listeners listenerCount) actions).getLast? =
        some (run (State.initial env listeners listenerCount) actions).serviceQuote := by
    intro hf
    rcases h2 hf with h3 | h3
    · simp [State.initial] at h3
    · rw [h1]
      cases hl : (resolutions (State.initial env listeners listenerCount) actions).getLast? with
      | none => exact absurd (List.getLast?_eq_none_iff.mp hl) h3
      | some q => rfl
  refine ⟨h1, key, ?_, ?_⟩
  · intro q hq
    unfold deliveryFeeReads at hq
    split at hq
    · cases hq
    · rename_i hf
      cases hq
      exact key (by simpa using hf)
  · intro q hq
    unfold checkoutReads at hq
    split at hq
    · cases hq
    · rename_i hf
      cases hq
      refine key ?_
      simp only [isCheckoutDisabled, Bool.or_eq_true, not_or, Bool.not_eq_true] at hf
      exact hf.1

/-- Witness of C13: after mount, a 'deliver_to.changed' event and the resolution of its
quote request with a quote of 150, fetching is over and both reads see that quote. -/
theorem serviceQuote_is_resolved_quote_witness :
    (run (State.initial env0 [] 0) [.mount, .emitted (.deliverToChanged home),
      .settle 1 (.quote (.delivery (.num 150)))]).isFetchingServiceQuote = false ∧
    (resolutions (State.initial env0 [] 0) [.mount, .emitted (.deliverToChanged home),
      .settle 1 (.quote (.delivery (.num 150)))]).getLast? =
      some (run (State.initial env0 [] 0) [.mount, .emitted (.deliverToChanged home),
        .settle 1 (.quote (.delivery (.num 150)))]).serviceQuote ∧
    deliveryFeeReads (run (State.initial env0 [] 0) [.mount, .emitted (.deliverToChanged home),
      .settle 1 (.quote (.delivery (.num 150)))]) = some (.delivery (.num 150)) :=
  ⟨rfl,
    (serviceQuote_is_resolved_quote env0 [] 0 [.mount, .emitted (.deliverToChanged home),
      .settle 1 (.quote (.delivery (.num 150)))]).2.1 rfl,
    rfl⟩

end Storefront
